import Mathlib

/-!
Shallow embedding of the order-fulfillment concurrency core of the
Order-fulfillment repository: the inventory ledger
(`inventory/models.py`, `inventory/views.py`), the order aggregate
(`orders/models.py`), the post-save signal handlers (`orders/signals.py`),
the order-creation serializer (`orders/serializers.py`) and the stale-order
reconciler (`orders/tasks.py`).

Database counters are `PositiveIntegerField`s (non-negative integers), so
they are embedded as `Nat`; Python's `max(0, a - b)` on such values
coincides with truncated `Nat` subtraction and is written literally where
the source writes it.  Wall-clock timestamps (`timezone.now()`) are passed
in as an explicit `now : Nat` parameter (minutes).  Each Django
`transaction.atomic` block holding a `select_for_update` row lock is an
atomic step, so it is embedded as a pure function from state to state;
an atomic block that an exception escapes rolls back, which is embedded
by returning the entry state.
-/

namespace OrderFulfillment

/-- Transaction types of `InventoryTransaction.TRANSACTION_TYPES` in
`inventory/models.py`. -/
inductive TransactionType where
  | RESERVE
  | RELEASE
  | FULFILL
  | ADJUST
  | RECEIVE
  | DAMAGE
deriving DecidableEq, Repr

/-- One `inventory_transactions` row (`InventoryTransaction` in
`inventory/models.py`), restricted to the fields the core writes. -/
structure InventoryTransaction where
  transaction_type : TransactionType
  quantity : Nat
  previous_quantity : Nat
  new_quantity : Nat
  previous_reserved : Nat
  new_reserved : Nat
  order_id : Option Nat
deriving DecidableEq, Repr

/-- One `inventory_items` row (`InventoryItem` in `inventory/models.py`)
together with its append-only transaction log. -/
structure InventoryItem where
  quantity : Nat
  reserved_quantity : Nat
  transactions : List InventoryTransaction
deriving DecidableEq, Repr

/-- `InventoryItem.available_quantity`: `max(0, self.quantity - self.reserved_quantity)`. -/
def available_quantity (inv : InventoryItem) : Nat :=
  max 0 (inv.quantity - inv.reserved_quantity)

/-- `InventoryItem.reserve_stock` on a row that exists, inside its
`transaction.atomic` block with the row lock held: if
`available_quantity >= quantity` then `reserved_quantity += quantity` and one
RESERVE transaction row is created (the source records `previous_reserved`
as the already-updated counter minus `quantity`); otherwise no mutation and
`False`. -/
def reserve_stock (inv : InventoryItem) (quantity : Nat) : Bool × InventoryItem :=
  if available_quantity inv ≥ quantity then
    let inv2 : InventoryItem := { inv with reserved_quantity := inv.reserved_quantity + quantity }
    let txn : InventoryTransaction :=
      { transaction_type := TransactionType.RESERVE
        quantity := quantity
        previous_quantity := inv2.quantity
        new_quantity := inv2.quantity
        previous_reserved := inv2.reserved_quantity - quantity
        new_reserved := inv2.reserved_quantity
        order_id := none }
    (true, { inv2 with transactions := inv2.transactions ++ [txn] })
  else
    (false, inv)

/-- `InventoryItem.release_stock` on a row that exists: if
`reserved_quantity >= quantity` then `reserved_quantity -= quantity` and one
RELEASE transaction row is created; otherwise no mutation and `False`. -/
def release_stock (inv : InventoryItem) (quantity : Nat) (order_id : Option Nat) :
    Bool × InventoryItem :=
  if inv.reserved_quantity ≥ quantity then
    let inv2 : InventoryItem := { inv with reserved_quantity := inv.reserved_quantity - quantity }
    let txn : InventoryTransaction :=
      { transaction_type := TransactionType.RELEASE
        quantity := quantity
        previous_quantity := inv2.quantity
        new_quantity := inv2.quantity
        previous_reserved := inv2.reserved_quantity + quantity
        new_reserved := inv2.reserved_quantity
        order_id := order_id }
    (true, { inv2 with transactions := inv2.transactions ++ [txn] })
  else
    (false, inv)

/-- `InventoryItem.fulfill_order` on a row that exists: if
`reserved_quantity >= quantity` then both `quantity` and `reserved_quantity`
drop by `quantity` and one FULFILL transaction row is created; otherwise no
mutation and `False`.  (`quantity` is a `PositiveIntegerField`, so the
truncated subtraction mirrors the non-negativity constraint.) -/
def fulfill_order (inv : InventoryItem) (quantity : Nat) (order_id : Option Nat) :
    Bool × InventoryItem :=
  if inv.reserved_quantity ≥ quantity then
    let inv2 : InventoryItem :=
      { inv with
          quantity := inv.quantity - quantity
          reserved_quantity := inv.reserved_quantity - quantity }
    let txn : InventoryTransaction :=
      { transaction_type := TransactionType.FULFILL
        quantity := quantity
        previous_quantity := inv2.quantity + quantity
        new_quantity := inv2.quantity
        previous_reserved := inv2.reserved_quantity + quantity
        new_reserved := inv2.reserved_quantity
        order_id := order_id }
    (true, { inv2 with transactions := inv2.transactions ++ [txn] })
  else
    (false, inv)

/-- The `adjustment_type` choices of `InventoryAdjustmentSerializer` in
`inventory/serializers.py`. -/
inductive AdjustmentType where
  | add
  | remove
  | set
deriving DecidableEq, Repr

/-- The body of `InventoryViewSet.adjust` in `inventory/views.py` (the
`transaction.atomic` block): `add` adds to `quantity`, `remove` clamps at
zero via `max(0, previous - quantity)`, `set` overwrites `quantity`; the
ADJUST transaction row records `abs(new - previous)`; `reserved_quantity`
is never touched. -/
def adjust (inv : InventoryItem) (adjustment_type : AdjustmentType) (quantity : Nat) :
    InventoryItem :=
  let previous_quantity := inv.quantity
  let new_quantity :=
    match adjustment_type with
    | AdjustmentType.add => previous_quantity + quantity
    | AdjustmentType.remove => max 0 (previous_quantity - quantity)
    | AdjustmentType.set => quantity
  let inv2 : InventoryItem := { inv with quantity := new_quantity }
  let txn : InventoryTransaction :=
    { transaction_type := TransactionType.ADJUST
      quantity := ((new_quantity : Int) - (previous_quantity : Int)).natAbs
      previous_quantity := previous_quantity
      new_quantity := new_quantity
      previous_reserved := inv2.reserved_quantity
      new_reserved := inv2.reserved_quantity
      order_id := none }
  { inv2 with transactions := inv2.transactions ++ [txn] }

/-- `InventoryViewSet.adjust` including
`InventoryAdjustmentSerializer.validate_quantity`: a `remove` of more than
the current `quantity` is rejected with no mutation; every other request
passes validation and runs `adjust`. -/
def adjust_endpoint (inv : InventoryItem) (adjustment_type : AdjustmentType) (quantity : Nat) :
    Bool × InventoryItem :=
  if adjustment_type = AdjustmentType.remove ∧ quantity > inv.quantity then
    (false, inv)
  else
    (true, adjust inv adjustment_type quantity)

/-- Product primary keys (`product_id`). -/
abbrev ProductId := Nat

/-- The `inventory_items` table: at most one row per product
(`product` is a `OneToOneField`), embedded as an association list keyed by
product id. -/
abbrev InventoryTable := List (ProductId × InventoryItem)

/-- `cls.objects.get(product_id=product_id)`: the row for a product, if any
(`product` is unique, so the first match is the row). -/
def get_item : InventoryTable → ProductId → Option InventoryItem
  | [], _ => none
  | e :: rest, pid => if e.1 = pid then some e.2 else get_item rest pid

/-- Writing the locked row for `pid` back to the table. -/
def set_item : InventoryTable → ProductId → InventoryItem → InventoryTable
  | [], _, _ => []
  | e :: rest, pid, inv =>
      if e.1 = pid then (e.1, inv) :: set_item rest pid inv else e :: set_item rest pid inv

/-- The classmethod `InventoryItem.reserve_stock(product_id, quantity)` at
table level: `except cls.DoesNotExist: return False` turns a missing row
into the plain boolean failure. -/
def reserve_stock_table (tbl : InventoryTable) (pid : ProductId) (quantity : Nat) :
    Bool × InventoryTable :=
  match get_item tbl pid with
  | some inv =>
      let r := reserve_stock inv quantity
      (r.1, set_item tbl pid r.2)
  | none => (false, tbl)

/-- `InventoryItem.release_stock(product_id, quantity, order_id)` at table
level. -/
def release_stock_table (tbl : InventoryTable) (pid : ProductId) (quantity : Nat)
    (order_id : Option Nat) : Bool × InventoryTable :=
  match get_item tbl pid with
  | some inv =>
      let r := release_stock inv quantity order_id
      (r.1, set_item tbl pid r.2)
  | none => (false, tbl)

/-- `InventoryItem.fulfill_order(product_id, quantity, order_id)` at table
level. -/
def fulfill_order_table (tbl : InventoryTable) (pid : ProductId) (quantity : Nat)
    (order_id : Option Nat) : Bool × InventoryTable :=
  match get_item tbl pid with
  | some inv =>
      let r := fulfill_order inv quantity order_id
      (r.1, set_item tbl pid r.2)
  | none => (false, tbl)

/-- The error taxonomy named by the specification for a reserve against a
product with no inventory row. -/
inductive LedgerError where
  | NotFound
deriving DecidableEq, Repr

/-- `InventoryItem.reserve_stock` with its exception behaviour made
explicit: the only exception the body can raise, `cls.DoesNotExist`, is
caught by the `except` clause and converted to `return False`, so every
call returns normally (`Except.ok`); no error ever escapes to the caller. -/
def reserve_stock_exc (tbl : InventoryTable) (pid : ProductId) (quantity : Nat) :
    Except LedgerError (Bool × InventoryTable) :=
  match get_item tbl pid with
  | some inv =>
      let r := reserve_stock inv quantity
      Except.ok (r.1, set_item tbl pid r.2)
  | none => Except.ok (false, tbl)

/-- `OrderStatus` in `orders/models.py`. -/
inductive OrderStatus where
  | pending
  | processing
  | shipped
  | delivered
  | cancelled
  | failed
deriving DecidableEq, Repr

/-- One `order_status_history` row (`OrderStatusHistory`), restricted to the
transition fields. -/
structure OrderStatusHistory where
  from_status : OrderStatus
  to_status : OrderStatus
deriving DecidableEq, Repr

/-- One `orders` row (`Order` in `orders/models.py`) together with its
status-history log; timestamps are minutes. -/
structure Order where
  status : OrderStatus
  current_state_since : Nat
  version : Nat
  processing_started_at : Option Nat
  completed_at : Option Nat
  status_history : List OrderStatusHistory
deriving DecidableEq, Repr

/-- `Order.update_status(new_status, notes)`: returns `False` with no change
when the status is unchanged; otherwise stamps `current_state_since`,
increments `version`, sets `processing_started_at` the first time the status
becomes `processing`, sets `completed_at` the first time the status enters a
terminal state, saves, and appends one `OrderStatusHistory` row. -/
def update_status (o : Order) (new_status : OrderStatus) (now : Nat) : Bool × Order :=
  if o.status = new_status then
    (false, o)
  else
    let old_status := o.status
    let o1 : Order :=
      { o with
          status := new_status
          current_state_since := now
          version := o.version + 1 }
    let o2 : Order :=
      if new_status = OrderStatus.processing ∧ o1.processing_started_at = none then
        { o1 with processing_started_at := some now }
      else if new_status = OrderStatus.delivered ∨ new_status = OrderStatus.cancelled ∨
          new_status = OrderStatus.failed then
        if o1.completed_at = none then { o1 with completed_at := some now } else o1
      else
        o1
    (true,
      { o2 with
          status_history :=
            o2.status_history ++ [{ from_status := old_status, to_status := new_status }] })

/-- A sequence of `update_status` calls, returning how many of them
committed (returned `True`) and the final order. -/
def run_updates (o : Order) : List (OrderStatus × Nat) → Nat × Order
  | [] => (0, o)
  | step :: rest =>
      let r := update_status o step.1 step.2
      let rec_result := run_updates r.2 rest
      ((if r.1 then 1 else 0) + rec_result.1, rec_result.2)

/-- `OrderViewSet.cancel` in `orders/views.py`: rejected (HTTP 400, no
mutation) when the order is already `delivered` or `cancelled`; otherwise
`update_status(CANCELLED)` runs. -/
def cancel_endpoint (o : Order) (now : Nat) : Bool × Order :=
  if o.status = OrderStatus.delivered ∨ o.status = OrderStatus.cancelled then
    (false, o)
  else
    (true, (update_status o OrderStatus.cancelled now).2)

/-- The `PENDING` branch of `check_stale_orders` in `orders/tasks.py`,
applied to one order: when the order is in `pending` and
`current_state_since < now - 5 minutes`, the task calls
`update_status(PENDING, "Restarted due to stale state")` and then enqueues
`process_order.delay` once; the second component counts the enqueued
lifecycle runs. -/
def check_stale_pending (o : Order) (now : Nat) : Order × Nat :=
  if o.status = OrderStatus.pending ∧ o.current_state_since < now - 5 then
    ((update_status o OrderStatus.pending now).2, 1)
  else
    (o, 0)

/-- One `order_items` row (`OrderItem`), restricted to the fields the
inventory side effects read. -/
structure OrderItemRow where
  product : ProductId
  quantity : Nat
deriving DecidableEq, Repr

/-- The `post_save` receiver `handle_order_status_change` in
`orders/signals.py`, as it acts on the inventory table: it fires on every
save of an existing order (`created = False`) and dispatches on the order's
current status — `cancelled`/`failed` releases every item's quantity,
`delivered` fulfills every item; each item's boolean result is only logged,
never propagated. -/
def handle_order_status_change (created : Bool) (status : OrderStatus)
    (items : List OrderItemRow) (order_id : Option Nat) (tbl : InventoryTable) :
    InventoryTable :=
  if created then
    tbl
  else if status = OrderStatus.cancelled ∨ status = OrderStatus.failed then
    items.foldl (fun acc it => (release_stock_table acc it.product it.quantity order_id).2) tbl
  else if status = OrderStatus.delivered then
    items.foldl (fun acc it => (fulfill_order_table acc it.product it.quantity order_id).2) tbl
  else
    tbl

/-- `Order.calculate_total` ends in `self.save(update_fields=[...])`; a save
of an existing order fires the `post_save` receivers again, so its inventory
effect is one more run of `handle_order_status_change` with `created = False`
and the order's current status. -/
def calculate_total_save (status : OrderStatus) (items : List OrderItemRow)
    (order_id : Option Nat) (tbl : InventoryTable) : InventoryTable :=
  handle_order_status_change false status items order_id tbl

/-- One `orders` row as the creation path sees it: the order plus its item
rows. -/
structure OrderRow where
  items : List OrderItemRow
deriving DecidableEq, Repr

/-- The database slice the creation path touches. -/
structure CreationDB where
  inventory : InventoryTable
  orders : List OrderRow
deriving DecidableEq, Repr

/-- `OrderItem.objects.create(order=order, ...)`: appends an item row to the
just-created order (the last row of `orders`). -/
def append_item_to_last (db : CreationDB) (it : OrderItemRow) : CreationDB :=
  match db.orders.getLast? with
  | some o =>
      { db with orders := db.orders.dropLast ++ [{ o with items := o.items ++ [it] }] }
  | none => db

/-- The item loop of `OrderCreateSerializer.create` in
`orders/serializers.py`: for each item, create the `OrderItem` row, then
`InventoryItem.reserve_stock`; a failed reservation raises
`ValidationError`, which aborts the loop. -/
def create_items_loop (db : CreationDB) : List OrderItemRow → Except String CreationDB
  | [] => Except.ok db
  | it :: rest =>
      let db1 := append_item_to_last db it
      let r := reserve_stock_table db1.inventory it.product it.quantity
      let db2 := { db1 with inventory := r.2 }
      if r.1 then
        create_items_loop db2 rest
      else
        Except.error "Failed to reserve stock"

/-- `OrderCreateSerializer.create` under `@transaction.atomic`:
`Order.objects.create` inserts the (empty) order row, then the item loop
runs; an escaping `ValidationError` makes the surrounding transaction roll
every write of this request back, leaving the database as it was on entry. -/
def create_order (db : CreationDB) (items : List OrderItemRow) : Bool × CreationDB :=
  let db0 : CreationDB := { db with orders := db.orders ++ [{ items := [] }] }
  match create_items_loop db0 items with
  | Except.ok db1 => (true, db1)
  | Except.error _ => (false, db)

/-- Sequentially reserving each requested item
(`InventoryItem.reserve_stock` per item), with the conjunction of the
per-item results: the success predicate of the creation loop. -/
def reserve_all (tbl : InventoryTable) : List OrderItemRow → Bool × InventoryTable
  | [] => (true, tbl)
  | it :: rest =>
      let r := reserve_stock_table tbl it.product it.quantity
      if r.1 then
        reserve_all r.2 rest
      else
        (false, r.2)

/-- k calls of `InventoryItem.reserve_stock(product_id, m)` against one
product row.  Each call runs inside `transaction.atomic` holding the
`select_for_update` row lock for its whole read-check-write, so any
concurrent schedule of the k identical calls is equivalent to this
sequential composition; the first component counts the successful calls. -/
def reserve_many (inv : InventoryItem) (m : Nat) : Nat → Nat × InventoryItem
  | 0 => (0, inv)
  | Nat.succ k =>
      let r := reserve_stock inv m
      let rest := reserve_many r.2 m k
      ((if r.1 then 1 else 0) + rest.1, rest.2)

/-- The committed state-changing inventory operations applied to one row by
the ledger and the administrative endpoint. -/
inductive StockOp where
  | reserve (quantity : Nat)
  | release (quantity : Nat)
  | fulfill (quantity : Nat)
  | adjust_add (quantity : Nat)
  | adjust_remove (quantity : Nat)
  | adjust_set (quantity : Nat)
deriving DecidableEq, Repr

/-- Running one committed operation on an inventory row; the `adjust` modes
go through the validated endpoint `InventoryViewSet.adjust`. -/
def apply_stock_op (inv : InventoryItem) : StockOp → InventoryItem
  | StockOp.reserve quantity => (reserve_stock inv quantity).2
  | StockOp.release quantity => (release_stock inv quantity none).2
  | StockOp.fulfill quantity => (fulfill_order inv quantity none).2
  | StockOp.adjust_add quantity => (adjust_endpoint inv AdjustmentType.add quantity).2
  | StockOp.adjust_remove quantity => (adjust_endpoint inv AdjustmentType.remove quantity).2
  | StockOp.adjust_set quantity => (adjust_endpoint inv AdjustmentType.set quantity).2

/-- An operation sequence restricted to the modes that never write
`quantity` below `reserved_quantity`: the ledger operations plus `add`
adjustments. -/
def safe_stock_op : StockOp → Bool
  | StockOp.reserve _ => true
  | StockOp.release _ => true
  | StockOp.fulfill _ => true
  | StockOp.adjust_add _ => true
  | StockOp.adjust_remove _ => false
  | StockOp.adjust_set _ => false

/-! Helper lemmas about the ledger operations. -/

theorem available_quantity_eq (inv : InventoryItem) :
    available_quantity inv = inv.quantity - inv.reserved_quantity := by
  simp [available_quantity]

theorem reserve_stock_success (inv : InventoryItem) (q : Nat)
    (h : available_quantity inv ≥ q) :
    reserve_stock inv q =
      (true,
        { quantity := inv.quantity
          reserved_quantity := inv.reserved_quantity + q
          transactions := inv.transactions ++
            [{ transaction_type := TransactionType.RESERVE
               quantity := q
               previous_quantity := inv.quantity
               new_quantity := inv.quantity
               previous_reserved := inv.reserved_quantity
               new_reserved := inv.reserved_quantity + q
               order_id := none }] }) := by
  simp [reserve_stock, h]

theorem reserve_stock_fail (inv : InventoryItem) (q : Nat)
    (h : available_quantity inv < q) :
    reserve_stock inv q = (false, inv) := by
  simp only [reserve_stock, ge_iff_le, if_neg (not_le.mpr h)]

theorem release_stock_success (inv : InventoryItem) (q : Nat) (oid : Option Nat)
    (h : inv.reserved_quantity ≥ q) :
    (release_stock inv q oid).1 = true ∧
    (release_stock inv q oid).2.reserved_quantity = inv.reserved_quantity - q ∧
    (release_stock inv q oid).2.quantity = inv.quantity := by
  simp [release_stock, h]

theorem release_stock_fail (inv : InventoryItem) (q : Nat) (oid : Option Nat)
    (h : inv.reserved_quantity < q) :
    release_stock inv q oid = (false, inv) := by
  simp only [release_stock, ge_iff_le, if_neg (not_le.mpr h)]

theorem fulfill_order_success (inv : InventoryItem) (q : Nat) (oid : Option Nat)
    (h : inv.reserved_quantity ≥ q) :
    (fulfill_order inv q oid).1 = true ∧
    (fulfill_order inv q oid).2.reserved_quantity = inv.reserved_quantity - q ∧
    (fulfill_order inv q oid).2.quantity = inv.quantity - q := by
  simp [fulfill_order, h]

/-! Helper lemmas about `update_status`. -/

theorem update_status_same (o : Order) (X : OrderStatus) (now : Nat)
    (h : o.status = X) : update_status o X now = (false, o) := by
  simp [update_status, h]

theorem update_status_committed (o : Order) (X : OrderStatus) (now : Nat)
    (h : o.status ≠ X) :
    (update_status o X now).1 = true ∧
    (update_status o X now).2.status = X ∧
    (update_status o X now).2.current_state_since = now ∧
    (update_status o X now).2.version = o.version + 1 ∧
    (update_status o X now).2.status_history =
      o.status_history ++ [{ from_status := o.status, to_status := X }] := by
  simp only [update_status, if_neg h]
  refine ⟨by trivial, ?_, ?_, ?_, ?_⟩ <;> (split_ifs <;> rfl)

theorem update_status_version_step (o : Order) (X : OrderStatus) (now : Nat) :
    (update_status o X now).2.version =
      o.version + (if (update_status o X now).1 then 1 else 0) := by
  by_cases h : o.status = X
  · simp [update_status_same o X now h]
  · obtain ⟨h1, _, _, h4, _⟩ := update_status_committed o X now h
    rw [h1, h4]
    rfl

theorem run_updates_version (steps : List (OrderStatus × Nat)) :
    ∀ o : Order, (run_updates o steps).2.version = o.version + (run_updates o steps).1 := by
  induction steps with
  | nil => intro o; simp [run_updates]
  | cons s rest ih =>
      intro o
      simp only [run_updates]
      rw [ih (update_status o s.1 s.2).2, update_status_version_step o s.1 s.2]
      omega

/-- C2: for an existing inventory row, `reserve_stock` succeeds if and only
if `available_quantity >= qty` at the time of the (lock-serialized) call; on
success it returns `True`, adds exactly `qty` to `reserved_quantity`, leaves
`quantity` unchanged, and appends exactly one RESERVE transaction row whose
snapshots are the before/after counter values; otherwise it returns `False`
and changes neither counter nor the log. -/
theorem c2_reserve_contract (inv : InventoryItem) (qty : Nat) :
    (available_quantity inv ≥ qty →
      reserve_stock inv qty =
        (true,
          { quantity := inv.quantity
            reserved_quantity := inv.reserved_quantity + qty
            transactions := inv.transactions ++
              [{ transaction_type := TransactionType.RESERVE
                 quantity := qty
                 previous_quantity := inv.quantity
                 new_quantity := inv.quantity
                 previous_reserved := inv.reserved_quantity
                 new_reserved := inv.reserved_quantity + qty
                 order_id := none }] })) ∧
    (available_quantity inv < qty → reserve_stock inv qty = (false, inv)) :=
  ⟨reserve_stock_success inv qty, reserve_stock_fail inv qty⟩

/-- Witness for C2 at a concrete row: quantity 10, reserved 2; reserving 3
succeeds with the exact RESERVE row, reserving 20 fails with no change. -/
theorem c2_reserve_contract_witness :
    reserve_stock ⟨10, 2, []⟩ 3 =
      (true, ⟨10, 5, [⟨TransactionType.RESERVE, 3, 10, 10, 2, 5, none⟩]⟩) ∧
    reserve_stock ⟨10, 2, []⟩ 20 = (false, ⟨10, 2, []⟩) :=
  ⟨(c2_reserve_contract ⟨10, 2, []⟩ 3).1 (by decide),
   (c2_reserve_contract ⟨10, 2, []⟩ 20).2 (by decide)⟩

/-- C4: `update_status` is idempotent on an unchanged status (returns
`False`, order untouched, no history row); a changed status commits: it
returns `True`, increments `version` by exactly 1, stamps
`current_state_since` with the transition time, and appends exactly one
history row `from_status = old, to_status = new`; over any sequence of
calls the version grows by exactly the number of committed transitions. -/
theorem c4_update_status_contract (o : Order) (X : OrderStatus) (now : Nat) :
    (o.status = X → update_status o X now = (false, o)) ∧
    (o.status ≠ X →
      (update_status o X now).1 = true ∧
      (update_status o X now).2.status = X ∧
      (update_status o X now).2.current_state_since = now ∧
      (update_status o X now).2.version = o.version + 1 ∧
      (update_status o X now).2.status_history =
        o.status_history ++ [{ from_status := o.status, to_status := X }]) ∧
    (∀ steps : List (OrderStatus × Nat),
      (run_updates o steps).2.version = o.version + (run_updates o steps).1) :=
  ⟨update_status_same o X now, update_status_committed o X now,
   fun steps => run_updates_version steps o⟩

/-- Witness for C4 at a concrete pending order: a repeated `pending` update
is a no-op, a `processing` update returns `True` with version 2, and a
two-step sequence raises the version by its 2 committed transitions. -/
theorem c4_update_status_contract_witness :
    update_status ⟨OrderStatus.pending, 0, 1, none, none, []⟩ OrderStatus.pending 9 =
      (false, ⟨OrderStatus.pending, 0, 1, none, none, []⟩) ∧
    (update_status ⟨OrderStatus.pending, 0, 1, none, none, []⟩ OrderStatus.processing 9).1 =
      true ∧
    (update_status ⟨OrderStatus.pending, 0, 1, none, none, []⟩ OrderStatus.processing 9).2.version =
      2 ∧
    (run_updates ⟨OrderStatus.pending, 0, 1, none, none, []⟩
      [(OrderStatus.processing, 9), (OrderStatus.shipped, 12)]).2.version =
      1 + (run_updates ⟨OrderStatus.pending, 0, 1, none, none, []⟩
        [(OrderStatus.processing, 9), (OrderStatus.shipped, 12)]).1 :=
  ⟨(c4_update_status_contract ⟨OrderStatus.pending, 0, 1, none, none, []⟩
      OrderStatus.pending 9).1 rfl,
   ((c4_update_status_contract ⟨OrderStatus.pending, 0, 1, none, none, []⟩
      OrderStatus.processing 9).2.1 (by decide)).1,
   (((c4_update_status_contract ⟨OrderStatus.pending, 0, 1, none, none, []⟩
      OrderStatus.processing 9).2.1 (by decide)).2.2.2).1,
   (c4_update_status_contract ⟨OrderStatus.pending, 0, 1, none, none, []⟩
      OrderStatus.pending 0).2.2 [(OrderStatus.processing, 9), (OrderStatus.shipped, 12)]⟩

/-- C7 fails on the code: for a pending order 6 minutes stale the sweep does
enqueue one lifecycle run, but its `update_status(PENDING)` call hits the
idempotent guard (status unchanged), so the order — in particular
`current_state_since` — is left exactly as it was instead of being refreshed
to the sweep time. -/
theorem c7_counterexample :
    check_stale_pending ⟨OrderStatus.pending, 0, 1, none, none, []⟩ 6 =
      (⟨OrderStatus.pending, 0, 1, none, none, []⟩, 1) ∧
    (check_stale_pending ⟨OrderStatus.pending, 0, 1, none, none, []⟩ 6).1.current_state_since ≠
      6 := by
  refine ⟨?_, ?_⟩ <;> decide

/-- C7 amended: a stale pending order (older than the 5-minute threshold) is
picked up by one reconciler sweep, which enqueues exactly one new lifecycle
worker run for it, but the accompanying re-transition to `pending` is a
no-op under the idempotent guard: the order is returned unchanged, with no
timestamp refresh and no history row. -/
theorem c7_stale_pending_amended (o : Order) (now : Nat)
    (h1 : o.status = OrderStatus.pending) (h2 : o.current_state_since < now - 5) :
    check_stale_pending o now = (o, 1) := by
  simp [check_stale_pending, h1, h2, update_status_same o OrderStatus.pending now h1]

/-- Witness for the amended C7: a pending order stale since minute 0 swept
at minute 6 is returned unchanged with one enqueued run. -/
theorem c7_stale_pending_amended_witness :
    check_stale_pending ⟨OrderStatus.pending, 0, 1, none, none, []⟩ 6 =
      (⟨OrderStatus.pending, 0, 1, none, none, []⟩, 1) :=
  c7_stale_pending_amended ⟨OrderStatus.pending, 0, 1, none, none, []⟩ 6 rfl (by decide)

/-- C8 fails on the code: reserving against a product with no inventory row
does not surface a NotFound error — the `except cls.DoesNotExist` handler
converts it to the ordinary boolean failure, indistinguishable from
insufficient stock. -/
theorem c8_counterexample :
    reserve_stock_exc [] 1 5 = Except.ok (false, ([] : InventoryTable)) ∧
    reserve_stock_exc [] 1 5 ≠ Except.error LedgerError.NotFound := by
  refine ⟨rfl, fun h => ?_⟩
  rw [show reserve_stock_exc [] 1 5 = Except.ok (false, ([] : InventoryTable)) from rfl] at h
  exact Except.noConfusion h

/-- C8 amended: for a product with no inventory row, `reserve_stock` returns
normally with the plain boolean `False` and performs no mutation; no
NotFound error reaches the caller. -/
theorem c8_missing_row_amended (tbl : InventoryTable) (pid : ProductId) (qty : Nat)
    (h : get_item tbl pid = none) :
    reserve_stock_exc tbl pid qty = Except.ok (false, tbl) := by
  simp [reserve_stock_exc, h]

/-- Witness for the amended C8 on the empty table. -/
theorem c8_missing_row_amended_witness :
    reserve_stock_exc [] 7 5 = Except.ok (false, ([] : InventoryTable)) :=
  c8_missing_row_amended [] 7 5 rfl

/-- C9: `Order.update_status` enforces no transition graph — any distinct
target status commits (returns `True`, increments version, appends a history
row), including transitions out of the terminal states; and the public
cancel endpoint applies `cancelled` to `shipped` and `failed` orders,
rejecting only orders already `delivered` or `cancelled`. -/
theorem c9_no_transition_graph (o : Order) (t : OrderStatus) (now : Nat) :
    (o.status ≠ t →
      (update_status o t now).1 = true ∧
      (update_status o t now).2.status = t ∧
      (update_status o t now).2.version = o.version + 1 ∧
      (update_status o t now).2.status_history =
        o.status_history ++ [{ from_status := o.status, to_status := t }]) ∧
    (o.status = OrderStatus.shipped ∨ o.status = OrderStatus.failed →
      (cancel_endpoint o now).1 = true ∧
      (cancel_endpoint o now).2.status = OrderStatus.cancelled) ∧
    (o.status = OrderStatus.delivered ∨ o.status = OrderStatus.cancelled →
      cancel_endpoint o now = (false, o)) := by
  refine ⟨fun h => ?_, fun h => ?_, fun h => ?_⟩
  · obtain ⟨h1, h2, _, h4, h5⟩ := update_status_committed o t now h
    exact ⟨h1, h2, h4, h5⟩
  · have hne : o.status ≠ OrderStatus.cancelled := by
      rcases h with h | h <;> (rw [h]; exact fun hc => OrderStatus.noConfusion hc)
    have hnd : ¬(o.status = OrderStatus.delivered ∨ o.status = OrderStatus.cancelled) := by
      rcases h with h | h <;> (rw [h]; rintro (hc | hc) <;> exact OrderStatus.noConfusion hc)
    obtain ⟨_, h2, _, _, _⟩ := update_status_committed o OrderStatus.cancelled now hne
    simp only [cancel_endpoint, if_neg hnd]
    exact ⟨by trivial, h2⟩
  · simp [cancel_endpoint, h]

/-- Witness for C9: a delivered order transitions back to `pending` with a
committed update, a shipped order is cancelled through the endpoint, and a
delivered order's cancel request is rejected unchanged. -/
theorem c9_no_transition_graph_witness :
    (update_status ⟨OrderStatus.delivered, 0, 4, none, some 0, []⟩ OrderStatus.pending 9).1 =
      true ∧
    (cancel_endpoint ⟨OrderStatus.shipped, 0, 3, none, none, []⟩ 9).1 = true ∧
    (cancel_endpoint ⟨OrderStatus.shipped, 0, 3, none, none, []⟩ 9).2.status =
      OrderStatus.cancelled ∧
    cancel_endpoint ⟨OrderStatus.delivered, 0, 4, none, some 0, []⟩ 9 =
      (false, ⟨OrderStatus.delivered, 0, 4, none, some 0, []⟩) :=
  ⟨((c9_no_transition_graph ⟨OrderStatus.delivered, 0, 4, none, some 0, []⟩
      OrderStatus.pending 9).1 (by decide)).1,
   ((c9_no_transition_graph ⟨OrderStatus.shipped, 0, 3, none, none, []⟩
      OrderStatus.pending 9).2.1 (Or.inl rfl)).1,
   ((c9_no_transition_graph ⟨OrderStatus.shipped, 0, 3, none, none, []⟩
      OrderStatus.pending 9).2.1 (Or.inl rfl)).2,
   (c9_no_transition_graph ⟨OrderStatus.delivered, 0, 4, none, some 0, []⟩
      OrderStatus.pending 9).2.2 (Or.inl rfl)⟩

/-- One safe operation preserves `reserved_quantity ≤ quantity`. -/
theorem apply_stock_op_invariant (inv : InventoryItem) (op : StockOp)
    (hsafe : safe_stock_op op = true)
    (hinv : inv.reserved_quantity ≤ inv.quantity) :
    (apply_stock_op inv op).reserved_quantity ≤ (apply_stock_op inv op).quantity := by
  cases op with
  | reserve q =>
      by_cases h : available_quantity inv ≥ q
      · have ha := available_quantity_eq inv
        simp only [apply_stock_op, reserve_stock_success inv q h]
        omega
      · simp only [apply_stock_op, reserve_stock_fail inv q (by omega)]
        exact hinv
  | release q =>
      by_cases h : inv.reserved_quantity ≥ q
      · obtain ⟨_, h2, h3⟩ := release_stock_success inv q none h
        simp only [apply_stock_op]
        omega
      · simp only [apply_stock_op, release_stock_fail inv q none (by omega)]
        exact hinv
  | fulfill q =>
      by_cases h : inv.reserved_quantity ≥ q
      · obtain ⟨_, h2, h3⟩ := fulfill_order_success inv q none h
        simp only [apply_stock_op]
        omega
      · simp only [apply_stock_op, fulfill_order, ge_iff_le, if_neg (by omega : ¬q ≤ inv.reserved_quantity)]
        exact hinv
  | adjust_add q =>
      simp only [apply_stock_op, adjust_endpoint, adjust]
      split_ifs with h1 h2
      all_goals dsimp only
      all_goals omega
  | adjust_remove q => simp [safe_stock_op] at hsafe
  | adjust_set q => simp [safe_stock_op] at hsafe

/-- Safe operation sequences preserve the invariant, by induction along the
sequence. -/
theorem foldl_stock_ops_invariant (ops : List StockOp) :
    ∀ inv : InventoryItem, (∀ op ∈ ops, safe_stock_op op = true) →
      inv.reserved_quantity ≤ inv.quantity →
      (ops.foldl apply_stock_op inv).reserved_quantity ≤
        (ops.foldl apply_stock_op inv).quantity := by
  induction ops with
  | nil => intro inv _ hinv; simpa using hinv
  | cons op rest ih =>
      intro inv hsafe hinv
      simp only [List.foldl_cons]
      exact ih (apply_stock_op inv op)
        (fun x hx => hsafe x (List.mem_cons_of_mem _ hx))
        (apply_stock_op_invariant inv op (hsafe op (List.mem_cons_self _ _)) hinv)

/-- C3 fails on the code: starting from a row satisfying
`reserved_quantity ≤ quantity` (quantity 10, reserved 5), a committed
administrative `set` to 2 — and likewise a committed validated `remove` of
8 — drops `quantity` below `reserved_quantity`, because `adjust` never
touches `reserved_quantity` and validates `remove` only against `quantity`. -/
theorem c3_counterexample :
    ((⟨10, 5, []⟩ : InventoryItem).reserved_quantity ≤ (⟨10, 5, []⟩ : InventoryItem).quantity) ∧
    (adjust_endpoint ⟨10, 5, []⟩ AdjustmentType.set 2).1 = true ∧
    ¬((adjust_endpoint ⟨10, 5, []⟩ AdjustmentType.set 2).2.reserved_quantity ≤
        (adjust_endpoint ⟨10, 5, []⟩ AdjustmentType.set 2).2.quantity) ∧
    (adjust_endpoint ⟨10, 5, []⟩ AdjustmentType.remove 8).1 = true ∧
    ¬((adjust_endpoint ⟨10, 5, []⟩ AdjustmentType.remove 8).2.reserved_quantity ≤
        (adjust_endpoint ⟨10, 5, []⟩ AdjustmentType.remove 8).2.quantity) := by
  refine ⟨?_, ?_, ?_, ?_, ?_⟩ <;> decide

/-- C3 amended: the invariant `reserved_quantity ≤ quantity` is preserved by
every finite sequence of committed reserve, release, fulfill and
administrative `add` adjustments; the administrative `remove` and `set`
modes are excluded, since they rewrite `quantity` without touching
`reserved_quantity` and can therefore break the invariant. -/
theorem c3_invariant_amended (ops : List StockOp) (inv : InventoryItem)
    (hsafe : ∀ op ∈ ops, safe_stock_op op = true)
    (hinv : inv.reserved_quantity ≤ inv.quantity) :
    (ops.foldl apply_stock_op inv).reserved_quantity ≤
      (ops.foldl apply_stock_op inv).quantity :=
  foldl_stock_ops_invariant ops inv hsafe hinv

/-- Witness for the amended C3: a concrete mixed sequence of the four safe
operations keeps the invariant on a row starting at quantity 10, reserved 3. -/
theorem c3_invariant_amended_witness :
    (([StockOp.reserve 4, StockOp.release 2, StockOp.fulfill 3,
        StockOp.adjust_add 6].foldl apply_stock_op ⟨10, 3, []⟩).reserved_quantity ≤
      ([StockOp.reserve 4, StockOp.release 2, StockOp.fulfill 3,
        StockOp.adjust_add 6].foldl apply_stock_op ⟨10, 3, []⟩).quantity) :=
  c3_invariant_amended
    [StockOp.reserve 4, StockOp.release 2, StockOp.fulfill 3, StockOp.adjust_add 6]
    ⟨10, 3, []⟩ (by decide) (by decide)

/-- Counting lemma for serialized reservations: k reserve calls of m units
each succeed exactly `min k (available / m)` times, add that many times m to
`reserved_quantity`, and never change `quantity`. -/
theorem reserve_many_count (m : Nat) (hm : 0 < m) (k : Nat) :
    ∀ inv : InventoryItem,
      (reserve_many inv m k).1 = min k (available_quantity inv / m) ∧
      (reserve_many inv m k).2.reserved_quantity =
        inv.reserved_quantity + min k (available_quantity inv / m) * m ∧
      (reserve_many inv m k).2.quantity = inv.quantity := by
  induction k with
  | zero => intro inv; simp [reserve_many]
  | succ k ih =>
      intro inv
      by_cases h : available_quantity inv ≥ m
      · have hs := reserve_stock_success inv m h
        have hdiv : available_quantity inv / m = (available_quantity inv - m) / m + 1 :=
          Nat.div_eq_sub_div hm h
        obtain ⟨ih1, ih2, ih3⟩ := ih (reserve_stock inv m).2
        have havail :
            available_quantity (reserve_stock inv m).2 = available_quantity inv - m := by
          rw [hs]
          simp only [available_quantity_eq]
          omega
        have hmin :
            min (k + 1) ((available_quantity inv - m) / m + 1) =
              min k ((available_quantity inv - m) / m) + 1 := by
          omega
        rw [havail] at ih1 ih2
        rw [hs] at ih1 ih2 ih3
        simp only [reserve_many, hs, if_true]
        refine ⟨?_, ?_, ?_⟩
        · rw [ih1, hdiv, hmin]
          omega
        · rw [ih2, hdiv, hmin]
          dsimp only
          ring
        · rw [ih3]
      · have hf := reserve_stock_fail inv m (by omega)
        have hdiv : available_quantity inv / m = 0 := Nat.div_eq_of_lt (by omega)
        obtain ⟨ih1, ih2, ih3⟩ := ih inv
        simp only [reserve_many, hf]
        refine ⟨?_, ?_, ?_⟩
        · rw [ih1, hdiv]
          simp
        · rw [ih2, hdiv]
          simp
        · exact ih3

/-- C1: concurrent reserve calls on one product serialize on the row lock,
so any schedule of k concurrent `reserve_stock(m)` calls against a row with
`quantity = N`, `reserved_quantity = 0` (hence `available_quantity = N`) is
the sequential composition `reserve_many`; when the demand exceeds the stock
(`k*m > N`) exactly `floor(N/m)` calls succeed and the rest fail, the final
`reserved_quantity` is `floor(N/m)*m`, `quantity` is untouched, and at least
one call succeeds whenever one call's worth of stock exists (`m ≤ N`). -/
theorem c1_concurrent_reserve_no_oversell (N m k : Nat) (hk : N < k * m) :
    (reserve_many ⟨N, 0, []⟩ m k).1 = N / m ∧
    (reserve_many ⟨N, 0, []⟩ m k).2.reserved_quantity = N / m * m ∧
    (reserve_many ⟨N, 0, []⟩ m k).2.quantity = N ∧
    (m ≤ N → 0 < (reserve_many ⟨N, 0, []⟩ m k).1) := by
  have hm : 0 < m := by
    rcases Nat.eq_zero_or_pos m with h | h
    · subst h; omega
    · exact h
  obtain ⟨h1, h2, h3⟩ := reserve_many_count m hm k ⟨N, 0, []⟩
  have hA : available_quantity ⟨N, 0, []⟩ = N := by
    simp [available_quantity]
  have hlt : N / m < k := (Nat.div_lt_iff_lt_mul hm).mpr hk
  rw [hA] at h1 h2
  have hmin : min k (N / m) = N / m := by omega
  rw [hmin] at h1 h2
  refine ⟨h1, by simpa using h2, h3, fun hmN => ?_⟩
  rw [h1]
  exact Nat.div_pos hmN hm

/-- Witness for C1: stock 5, three concurrent calls of 2 units each — two
succeed, one fails, 4 units end reserved and the total stays 5. -/
theorem c1_concurrent_reserve_no_oversell_witness :
    (reserve_many ⟨5, 0, []⟩ 2 3).1 = 2 ∧
    (reserve_many ⟨5, 0, []⟩ 2 3).2.reserved_quantity = 4 ∧
    (reserve_many ⟨5, 0, []⟩ 2 3).2.quantity = 5 ∧
    0 < (reserve_many ⟨5, 0, []⟩ 2 3).1 :=
  ⟨(c1_concurrent_reserve_no_oversell 5 2 3 (by decide)).1,
   (c1_concurrent_reserve_no_oversell 5 2 3 (by decide)).2.1,
   (c1_concurrent_reserve_no_oversell 5 2 3 (by decide)).2.2.1,
   (c1_concurrent_reserve_no_oversell 5 2 3 (by decide)).2.2.2 (by decide)⟩

/-! Lemmas about the inventory table. -/

theorem get_item_set_item_ne (tbl : InventoryTable) (pid pid2 : ProductId)
    (inv : InventoryItem) (h : pid2 ≠ pid) :
    get_item (set_item tbl pid inv) pid2 = get_item tbl pid2 := by
  induction tbl with
  | nil => rfl
  | cons e rest ih =>
      by_cases he : e.1 = pid
      · have hne : ¬e.1 = pid2 := fun hc => h (hc ▸ he)
        simp only [set_item, if_pos he, get_item, if_neg hne]
        exact ih
      · simp only [set_item, if_neg he, get_item]
        by_cases h2 : e.1 = pid2
        · simp [h2]
        · simp only [if_neg h2]
          exact ih

theorem get_item_set_item_self (tbl : InventoryTable) (pid : ProductId)
    (inv inv0 : InventoryItem) (h : get_item tbl pid = some inv0) :
    get_item (set_item tbl pid inv) pid = some inv := by
  induction tbl with
  | nil => simp [get_item] at h
  | cons e rest ih =>
      by_cases he : e.1 = pid
      · simp only [set_item, if_pos he, get_item, if_pos he]
      · simp only [get_item, if_neg he] at h
        simp only [set_item, if_neg he, get_item, if_neg he]
        exact ih h

theorem reserve_stock_table_get_self (tbl : InventoryTable) (pid : ProductId) (q : Nat) :
    get_item (reserve_stock_table tbl pid q).2 pid =
      (get_item tbl pid).map fun inv => (reserve_stock inv q).2 := by
  cases h : get_item tbl pid with
  | none => simp [reserve_stock_table, h]
  | some inv => simp [reserve_stock_table, h, get_item_set_item_self tbl pid _ inv h]

theorem reserve_stock_table_get_ne (tbl : InventoryTable) (pid pid2 : ProductId) (q : Nat)
    (h : pid2 ≠ pid) :
    get_item (reserve_stock_table tbl pid q).2 pid2 = get_item tbl pid2 := by
  cases hg : get_item tbl pid with
  | none => simp [reserve_stock_table, hg]
  | some inv => simp [reserve_stock_table, hg, get_item_set_item_ne tbl pid pid2 _ h]

theorem release_stock_table_get_self (tbl : InventoryTable) (pid : ProductId) (q : Nat)
    (oid : Option Nat) :
    get_item (release_stock_table tbl pid q oid).2 pid =
      (get_item tbl pid).map fun inv => (release_stock inv q oid).2 := by
  cases h : get_item tbl pid with
  | none => simp [release_stock_table, h]
  | some inv => simp [release_stock_table, h, get_item_set_item_self tbl pid _ inv h]

theorem release_stock_table_get_ne (tbl : InventoryTable) (pid pid2 : ProductId) (q : Nat)
    (oid : Option Nat) (h : pid2 ≠ pid) :
    get_item (release_stock_table tbl pid q oid).2 pid2 = get_item tbl pid2 := by
  cases hg : get_item tbl pid with
  | none => simp [release_stock_table, hg]
  | some inv => simp [release_stock_table, hg, get_item_set_item_ne tbl pid pid2 _ h]

theorem fulfill_order_table_get_self (tbl : InventoryTable) (pid : ProductId) (q : Nat)
    (oid : Option Nat) :
    get_item (fulfill_order_table tbl pid q oid).2 pid =
      (get_item tbl pid).map fun inv => (fulfill_order inv q oid).2 := by
  cases h : get_item tbl pid with
  | none => simp [fulfill_order_table, h]
  | some inv => simp [fulfill_order_table, h, get_item_set_item_self tbl pid _ inv h]

theorem fulfill_order_table_get_ne (tbl : InventoryTable) (pid pid2 : ProductId) (q : Nat)
    (oid : Option Nat) (h : pid2 ≠ pid) :
    get_item (fulfill_order_table tbl pid q oid).2 pid2 = get_item tbl pid2 := by
  cases hg : get_item tbl pid with
  | none => simp [fulfill_order_table, hg]
  | some inv => simp [fulfill_order_table, hg, get_item_set_item_ne tbl pid pid2 _ h]

/-! Lemmas about the per-item folds run by the signal handler. -/

theorem release_fold_get_ne (oid : Option Nat) (items : List OrderItemRow) :
    ∀ (tbl : InventoryTable) (pid : ProductId), pid ∉ items.map OrderItemRow.product →
      get_item
        (items.foldl (fun acc it => (release_stock_table acc it.product it.quantity oid).2) tbl)
        pid = get_item tbl pid := by
  induction items with
  | nil => intro tbl pid _; rfl
  | cons it rest ih =>
      intro tbl pid hpid
      simp only [List.map_cons, List.mem_cons, not_or] at hpid
      simp only [List.foldl_cons]
      rw [ih _ _ hpid.2, release_stock_table_get_ne _ _ _ _ _ hpid.1]

theorem release_fold_get_mem (oid : Option Nat) (items : List OrderItemRow) :
    ∀ (tbl : InventoryTable) (it : OrderItemRow), it ∈ items →
      (items.map OrderItemRow.product).Nodup →
      get_item
        (items.foldl (fun acc x => (release_stock_table acc x.product x.quantity oid).2) tbl)
        it.product =
      (get_item tbl it.product).map fun inv => (release_stock inv it.quantity oid).2 := by
  induction items with
  | nil => intro tbl it hmem _; cases hmem
  | cons hd rest ih =>
      intro tbl it hmem hnodup
      simp only [List.map_cons, List.nodup_cons] at hnodup
      simp only [List.foldl_cons]
      rcases List.mem_cons.mp hmem with he | hm
      · subst he
        rw [release_fold_get_ne oid rest _ _ hnodup.1, release_stock_table_get_self]
      · have hne : it.product ≠ hd.product := by
          intro hcontra
          exact hnodup.1 (hcontra ▸ List.mem_map_of_mem OrderItemRow.product hm)
        rw [ih _ _ hm hnodup.2, release_stock_table_get_ne _ _ _ _ _ hne]

theorem fulfill_fold_get_ne (oid : Option Nat) (items : List OrderItemRow) :
    ∀ (tbl : InventoryTable) (pid : ProductId), pid ∉ items.map OrderItemRow.product →
      get_item
        (items.foldl (fun acc it => (fulfill_order_table acc it.product it.quantity oid).2) tbl)
        pid = get_item tbl pid := by
  induction items with
  | nil => intro tbl pid _; rfl
  | cons it rest ih =>
      intro tbl pid hpid
      simp only [List.map_cons, List.mem_cons, not_or] at hpid
      simp only [List.foldl_cons]
      rw [ih _ _ hpid.2, fulfill_order_table_get_ne _ _ _ _ _ hpid.1]

theorem fulfill_fold_get_mem (oid : Option Nat) (items : List OrderItemRow) :
    ∀ (tbl : InventoryTable) (it : OrderItemRow), it ∈ items →
      (items.map OrderItemRow.product).Nodup →
      get_item
        (items.foldl (fun acc x => (fulfill_order_table acc x.product x.quantity oid).2) tbl)
        it.product =
      (get_item tbl it.product).map fun inv => (fulfill_order inv it.quantity oid).2 := by
  induction items with
  | nil => intro tbl it hmem _; cases hmem
  | cons hd rest ih =>
      intro tbl it hmem hnodup
      simp only [List.map_cons, List.nodup_cons] at hnodup
      simp only [List.foldl_cons]
      rcases List.mem_cons.mp hmem with he | hm
      · subst he
        rw [fulfill_fold_get_ne oid rest _ _ hnodup.1, fulfill_order_table_get_self]
      · have hne : it.product ≠ hd.product := by
          intro hcontra
          exact hnodup.1 (hcontra ▸ List.mem_map_of_mem OrderItemRow.product hm)
        rw [ih _ _ hm hnodup.2, fulfill_order_table_get_ne _ _ _ _ _ hne]

/-- C6: when an order is saved in `cancelled` or `failed`, the signal
handler releases each order item's reservation — the item's product loses
exactly the item quantity from `reserved_quantity` with `quantity`
unchanged (so `available_quantity` returns to its pre-order value) — and
when it is saved in `delivered` each item is fulfilled: both counters drop
by the item quantity. -/
theorem c6_terminal_transition_side_effects (items : List OrderItemRow)
    (tbl : InventoryTable) (st : OrderStatus) (oid : Option Nat)
    (it : OrderItemRow) (inv : InventoryItem)
    (hnodup : (items.map OrderItemRow.product).Nodup)
    (hmem : it ∈ items)
    (hget : get_item tbl it.product = some inv)
    (hres : inv.reserved_quantity ≥ it.quantity) :
    (st = OrderStatus.cancelled ∨ st = OrderStatus.failed →
      ∃ inv2,
        get_item (handle_order_status_change false st items oid tbl) it.product = some inv2 ∧
        inv2.reserved_quantity = inv.reserved_quantity - it.quantity ∧
        inv2.quantity = inv.quantity) ∧
    (st = OrderStatus.delivered →
      ∃ inv2,
        get_item (handle_order_status_change false st items oid tbl) it.product = some inv2 ∧
        inv2.reserved_quantity = inv.reserved_quantity - it.quantity ∧
        inv2.quantity = inv.quantity - it.quantity) := by
  constructor
  · intro hst
    have hhandler : handle_order_status_change false st items oid tbl =
        items.foldl (fun acc x => (release_stock_table acc x.product x.quantity oid).2) tbl := by
      rcases hst with h | h <;> subst h <;> simp [handle_order_status_change]
    rw [hhandler, release_fold_get_mem oid items tbl it hmem hnodup, hget]
    exact ⟨(release_stock inv it.quantity oid).2, rfl,
      (release_stock_success inv it.quantity oid hres).2.1,
      (release_stock_success inv it.quantity oid hres).2.2⟩
  · intro hst
    subst hst
    have hhandler :
        handle_order_status_change false OrderStatus.delivered items oid tbl =
        items.foldl (fun acc x => (fulfill_order_table acc x.product x.quantity oid).2) tbl := by
      simp [handle_order_status_change]
    rw [hhandler, fulfill_fold_get_mem oid items tbl it hmem hnodup, hget]
    exact ⟨(fulfill_order inv it.quantity oid).2, rfl,
      (fulfill_order_success inv it.quantity oid hres).2.1,
      (fulfill_order_success inv it.quantity oid hres).2.2⟩

/-- Witness for C6: a product holding 100 units with 5 reserved for an
order of 5; cancelling releases the 5 back (reserved 0, quantity 100),
and a delivery on the same starting state consumes them (reserved 0,
quantity 95). -/
theorem c6_terminal_transition_side_effects_witness :
    (∃ inv2,
      get_item (handle_order_status_change false OrderStatus.cancelled
        [⟨1, 5⟩] (some 9) [(1, ⟨100, 5, []⟩)]) 1 = some inv2 ∧
      inv2.reserved_quantity = 5 - 5 ∧
      inv2.quantity = 100) ∧
    (∃ inv2,
      get_item (handle_order_status_change false OrderStatus.delivered
        [⟨1, 5⟩] (some 9) [(1, ⟨100, 5, []⟩)]) 1 = some inv2 ∧
      inv2.reserved_quantity = 5 - 5 ∧
      inv2.quantity = 100 - 5) :=
  ⟨(c6_terminal_transition_side_effects [⟨1, 5⟩] [(1, ⟨100, 5, []⟩)]
      OrderStatus.cancelled (some 9) ⟨1, 5⟩ ⟨100, 5, []⟩ (by decide)
      (List.mem_singleton.mpr rfl) rfl (by decide)).1 (Or.inl rfl),
   (c6_terminal_transition_side_effects [⟨1, 5⟩] [(1, ⟨100, 5, []⟩)]
      OrderStatus.delivered (some 9) ⟨1, 5⟩ ⟨100, 5, []⟩ (by decide)
      (List.mem_singleton.mpr rfl) rfl (by decide)).2 rfl⟩

/-- C10: the inventory release is keyed on the order's current status at
save time, not on the transition — after a cancellation has already
released an item once, any further save of the still-cancelled order (such
as `calculate_total`, which ends in `self.save`) fires the handler again
and releases the same item a second time, dropping `reserved_quantity`
below the level the cancellation left (stock that other orders may hold). -/
theorem c10_release_not_exactly_once (tbl : InventoryTable) (pid : ProductId)
    (q : Nat) (oid : Option Nat) (inv : InventoryItem)
    (hget : get_item tbl pid = some inv)
    (h2q : 2 * q ≤ inv.reserved_quantity) (hq : 0 < q) :
    ∃ inv1 inv2,
      get_item (handle_order_status_change false OrderStatus.cancelled [⟨pid, q⟩] oid tbl)
        pid = some inv1 ∧
      inv1.reserved_quantity = inv.reserved_quantity - q ∧
      get_item (calculate_total_save OrderStatus.cancelled [⟨pid, q⟩] oid
        (handle_order_status_change false OrderStatus.cancelled [⟨pid, q⟩] oid tbl)) pid =
        some inv2 ∧
      inv2.reserved_quantity = inv.reserved_quantity - 2 * q ∧
      inv2.reserved_quantity ≠ inv1.reserved_quantity := by
  have hsingle : ∀ t : InventoryTable,
      handle_order_status_change false OrderStatus.cancelled [⟨pid, q⟩] oid t =
        (release_stock_table t pid q oid).2 := by
    intro t
    simp [handle_order_status_change]
  have hq1 : inv.reserved_quantity ≥ q := by omega
  have hg1 : get_item (handle_order_status_change false OrderStatus.cancelled
      [⟨pid, q⟩] oid tbl) pid = some (release_stock inv q oid).2 := by
    rw [hsingle, release_stock_table_get_self, hget]
    rfl
  have hr1 := release_stock_success inv q oid hq1
  have hq2 : (release_stock inv q oid).2.reserved_quantity ≥ q := by omega
  have hg2 : get_item (calculate_total_save OrderStatus.cancelled [⟨pid, q⟩] oid
      (handle_order_status_change false OrderStatus.cancelled [⟨pid, q⟩] oid tbl)) pid =
      some (release_stock (release_stock inv q oid).2 q oid).2 := by
    rw [calculate_total_save, hsingle, release_stock_table_get_self, hg1]
    rfl
  have hr2 := release_stock_success (release_stock inv q oid).2 q oid hq2
  refine ⟨(release_stock inv q oid).2, (release_stock (release_stock inv q oid).2 q oid).2,
    hg1, hr1.2.1, hg2, ?_, ?_⟩
  · rw [hr2.2.1, hr1.2.1]
    omega
  · rw [hr2.2.1, hr1.2.1]
    omega

/-- Witness for C10: product with 10 reserved (5 for the cancelled order, 5
for another); the cancel save releases to 5, a following `calculate_total`
save releases again to 0. -/
theorem c10_release_not_exactly_once_witness :
    ∃ inv1 inv2,
      get_item (handle_order_status_change false OrderStatus.cancelled [⟨1, 5⟩] (some 9)
        [(1, ⟨100, 10, []⟩)]) 1 = some inv1 ∧
      inv1.reserved_quantity = 10 - 5 ∧
      get_item (calculate_total_save OrderStatus.cancelled [⟨1, 5⟩] (some 9)
        (handle_order_status_change false OrderStatus.cancelled [⟨1, 5⟩] (some 9)
          [(1, ⟨100, 10, []⟩)])) 1 = some inv2 ∧
      inv2.reserved_quantity = 10 - 2 * 5 ∧
      inv2.reserved_quantity ≠ inv1.reserved_quantity :=
  c10_release_not_exactly_once [(1, ⟨100, 10, []⟩)] 1 5 (some 9) ⟨100, 10, []⟩
    rfl (by decide) (by decide)

/-! Lemmas about the order-creation path. -/

theorem reserve_stock_fst (inv : InventoryItem) (q : Nat) :
    (reserve_stock inv q).1 = true ↔ available_quantity inv ≥ q := by
  by_cases h : available_quantity inv ≥ q
  · simp [reserve_stock_success inv q h, h]
  · rw [reserve_stock_fail inv q (by omega)]
    simpa using h

theorem reserve_all_get_ne (items : List OrderItemRow) :
    ∀ (tbl : InventoryTable) (pid : ProductId), pid ∉ items.map OrderItemRow.product →
      get_item (reserve_all tbl items).2 pid = get_item tbl pid := by
  induction items with
  | nil => intro tbl pid _; rfl
  | cons it rest ih =>
      intro tbl pid hpid
      simp only [List.map_cons, List.mem_cons, not_or] at hpid
      simp only [reserve_all]
      split
      · rw [ih _ _ hpid.2, reserve_stock_table_get_ne _ _ _ _ hpid.1]
      · exact reserve_stock_table_get_ne _ _ _ _ hpid.1

theorem reserve_all_get_mem (items : List OrderItemRow) :
    ∀ (tbl : InventoryTable) (it : OrderItemRow) (inv : InventoryItem),
      it ∈ items → (items.map OrderItemRow.product).Nodup →
      (reserve_all tbl items).1 = true →
      get_item tbl it.product = some inv →
      (reserve_stock inv it.quantity).1 = true ∧
      get_item (reserve_all tbl items).2 it.product = some (reserve_stock inv it.quantity).2 := by
  induction items with
  | nil => intro tbl it inv hmem _ _ _; cases hmem
  | cons hd rest ih =>
      intro tbl it inv hmem hnodup hsucc hget
      simp only [List.map_cons, List.nodup_cons] at hnodup
      simp only [reserve_all] at hsucc ⊢
      by_cases hr : (reserve_stock_table tbl hd.product hd.quantity).1 = true
      · rw [if_pos hr] at hsucc ⊢
        rcases List.mem_cons.mp hmem with he | hm
        · subst he
          have hfst : (reserve_stock_table tbl it.product it.quantity).1 =
              (reserve_stock inv it.quantity).1 := by
            simp [reserve_stock_table, hget]
          refine ⟨by rw [← hfst]; exact hr, ?_⟩
          rw [reserve_all_get_ne rest _ _ hnodup.1, reserve_stock_table_get_self, hget]
          rfl
        · have hne : it.product ≠ hd.product := by
            intro hcontra
            exact hnodup.1 (hcontra ▸ List.mem_map_of_mem OrderItemRow.product hm)
          refine ih _ _ _ hm hnodup.2 hsucc ?_
          rw [reserve_stock_table_get_ne _ _ _ _ hne]
          exact hget
      · rw [if_neg hr] at hsucc
        simp at hsucc

theorem create_items_loop_concat (items : List OrderItemRow) :
    ∀ (tbl : InventoryTable) (os : List OrderRow) (o : OrderRow),
      ((reserve_all tbl items).1 = true →
        create_items_loop ⟨tbl, os ++ [o]⟩ items =
          Except.ok ⟨(reserve_all tbl items).2, os ++ [{ o with items := o.items ++ items }]⟩) ∧
      ((reserve_all tbl items).1 = false →
        create_items_loop ⟨tbl, os ++ [o]⟩ items = Except.error "Failed to reserve stock") := by
  induction items with
  | nil =>
      intro tbl os o
      constructor
      · intro _
        simp [create_items_loop, reserve_all]
      · intro h
        simp [reserve_all] at h
  | cons it rest ih =>
      intro tbl os o
      have happend : append_item_to_last ⟨tbl, os ++ [o]⟩ it =
          ⟨tbl, os ++ [{ o with items := o.items ++ [it] }]⟩ := by
        simp [append_item_to_last, List.getLast?_concat, List.dropLast_concat]
      constructor
      · intro hsucc
        simp only [reserve_all] at hsucc
        simp only [create_items_loop, happend]
        by_cases hr : (reserve_stock_table tbl it.product it.quantity).1 = true
        · rw [if_pos hr] at hsucc
          rw [if_pos hr]
          rw [(ih (reserve_stock_table tbl it.product it.quantity).2 os
              { o with items := o.items ++ [it] }).1 hsucc]
          simp only [reserve_all, if_pos hr, List.append_assoc, List.singleton_append]
        · rw [if_neg hr] at hsucc
          simp at hsucc
      · intro hfail
        simp only [reserve_all] at hfail
        simp only [create_items_loop, happend]
        by_cases hr : (reserve_stock_table tbl it.product it.quantity).1 = true
        · rw [if_pos hr] at hfail
          rw [if_pos hr]
          exact (ih (reserve_stock_table tbl it.product it.quantity).2 os
            { o with items := o.items ++ [it] }).2 hfail
        · rw [if_neg hr]

/-- C5: order creation is all-or-nothing — the creation request succeeds
exactly when every item can be reserved in sequence; when any reservation
fails, the rolled-back transaction leaves the database exactly as it was
(no Order row, no OrderItem rows, no reservation of an earlier item held);
when all succeed, the order persists with all its item rows and each
distinct product's `reserved_quantity` is up by exactly its item quantity. -/
theorem c5_atomic_order_creation (db : CreationDB) (items : List OrderItemRow) :
    ((create_order db items).1 = (reserve_all db.inventory items).1) ∧
    ((reserve_all db.inventory items).1 = false → (create_order db items).2 = db) ∧
    ((reserve_all db.inventory items).1 = true →
      (create_order db items).2.orders = db.orders ++ [{ items := items }] ∧
      ((items.map OrderItemRow.product).Nodup →
        ∀ it ∈ items, ∀ inv, get_item db.inventory it.product = some inv →
          available_quantity inv ≥ it.quantity ∧
          ∃ inv2,
            get_item (create_order db items).2.inventory it.product = some inv2 ∧
            inv2.reserved_quantity = inv.reserved_quantity + it.quantity ∧
            inv2.quantity = inv.quantity)) := by
  have hloop := create_items_loop_concat items db.inventory db.orders { items := [] }
  refine ⟨?_, ?_, ?_⟩
  · cases hra : (reserve_all db.inventory items).1 with
    | false =>
        simp only [create_order, hloop.2 hra]
    | true =>
        simp only [create_order, hloop.1 hra]
  · intro hra
    simp only [create_order, hloop.2 hra]
  · intro hra
    have hok := hloop.1 hra
    constructor
    · simp only [create_order, hok]
      rfl
    · intro hnodup it hmem inv hget
      obtain ⟨hfst, hgot⟩ := reserve_all_get_mem items db.inventory it inv hmem hnodup hra hget
      have havail : available_quantity inv ≥ it.quantity := (reserve_stock_fst inv it.quantity).mp hfst
      refine ⟨havail, (reserve_stock inv it.quantity).2, ?_, ?_, ?_⟩
      · simp only [create_order, hok]
        exact hgot
      · rw [reserve_stock_success inv it.quantity havail]
      · rw [reserve_stock_success inv it.quantity havail]

/-- Witness for C5: a store with 10 units of product 1; requesting 20 rolls
everything back, requesting 4 persists the order with its item and exactly
4 more units reserved. -/
theorem c5_atomic_order_creation_witness :
    (create_order ⟨[(1, ⟨10, 0, []⟩)], []⟩ [⟨1, 20⟩]).2 = ⟨[(1, ⟨10, 0, []⟩)], []⟩ ∧
    (create_order ⟨[(1, ⟨10, 0, []⟩)], []⟩ [⟨1, 4⟩]).2.orders = [{ items := [⟨1, 4⟩] }] ∧
    (available_quantity ⟨10, 0, []⟩ ≥ 4 ∧
      ∃ inv2,
        get_item (create_order ⟨[(1, ⟨10, 0, []⟩)], []⟩ [⟨1, 4⟩]).2.inventory 1 = some inv2 ∧
        inv2.reserved_quantity = 0 + 4 ∧
        inv2.quantity = 10) :=
  ⟨(c5_atomic_order_creation ⟨[(1, ⟨10, 0, []⟩)], []⟩ [⟨1, 20⟩]).2.1 (by decide),
   ((c5_atomic_order_creation ⟨[(1, ⟨10, 0, []⟩)], []⟩ [⟨1, 4⟩]).2.2 (by decide)).1,
   ((c5_atomic_order_creation ⟨[(1, ⟨10, 0, []⟩)], []⟩ [⟨1, 4⟩]).2.2 (by decide)).2
     (by decide) ⟨1, 4⟩ (List.mem_singleton.mpr rfl) ⟨10, 0, []⟩ rfl⟩

end OrderFulfillment
